import Mathlib

/-!
Shallow embedding of the `mcp-web-snapshot` snapshot tool
(`src/tools/snapshot_url.py`) together with a verification of its
specification.

Python strings are modelled as `List Char` (sequences of code points) at
the level of the line-oriented helpers, and as Lean `String` (a structure
wrapping `List Char`) at the level of the report assembler and the
orchestrator.  Helper functions model the Python string primitives used by
the source: `findSub` models `str.find`, `findFrom` models
`str.find(pat, start)`, `trim` models `str.strip()`, `splitLines` models
`str.split("\n")`, `joinLines` models `"\n".join`, `lower` models
`str.lower()`, `strTake` models slicing `s[:n]`, and `pyInt` models
`int(s)`.  Fallible awaited operations of the browser collaborator are
modelled as `Except String` values supplied by an environment record.
-/

/-- Model of Python `str.find(pat)`: the first index at which `pat` occurs
in `s` as a contiguous substring, or `none` where Python returns `-1`. -/
def findSub (s pat : List Char) : Option Nat :=
  if pat.isPrefixOf s then some 0
  else
    match s with
    | [] => none
    | _ :: rest => (findSub rest pat).map (· + 1)

/-- Model of Python `str.find(pat, start)`: first occurrence at or after
index `start` (Python reports the absolute index). -/
def findFrom (s pat : List Char) (start : Nat) : Option Nat :=
  (findSub (s.drop start) pat).map (· + start)

/-- Model of the Python substring test `pat in s`: Python's `in` succeeds
exactly when `find` does not return `-1`. -/
def containsSub (s pat : List Char) : Bool :=
  (findSub s pat).isSome

/-- Model of Python `str.lower()` (the source only feeds it ASCII). -/
def lower (s : List Char) : List Char :=
  s.map Char.toLower

/-- Right half of Python `str.strip()`: drop trailing whitespace. -/
def trimRight (s : List Char) : List Char :=
  (s.reverse.dropWhile Char.isWhitespace).reverse

/-- Model of Python `str.strip()`: drop leading and trailing whitespace. -/
def trim (s : List Char) : List Char :=
  trimRight (s.dropWhile Char.isWhitespace)

/-- Model of Python `str.split("\n")`: split on every newline, keeping
empty pieces; the empty string yields one empty line. -/
def splitLines : List Char → List (List Char)
  | [] => [[]]
  | c :: rest =>
    if c = '\n' then [] :: splitLines rest
    else
      match splitLines rest with
      | l :: ls => (c :: l) :: ls
      | [] => [[c]]

/-- Model of Python `"\n".join(lines)`. -/
def joinLines : List (List Char) → List Char
  | [] => []
  | [l] => l
  | l :: ls => l ++ '\n' :: joinLines ls

/-- Decimal digit character for a value below ten. -/
def digitChar10 (n : Nat) : Char :=
  Char.ofNat (48 + n % 10)

/-- Fuel-driven accumulator loop producing the decimal digits of a
natural number, most significant first. -/
def digitsAux : Nat → Nat → List Char → List Char
  | 0, _, acc => acc
  | fuel + 1, n, acc =>
    let acc' := digitChar10 n :: acc
    if n < 10 then acc' else digitsAux fuel (n / 10) acc'

/-- Model of the Python rendering `f"{n}"` of a nonnegative integer:
its decimal digit string. -/
def natDigits (n : Nat) : List Char :=
  digitsAux (n + 1) n []

/-- Model of Python string slicing `s[:n]` (by code points). -/
def strTake (s : String) (n : Nat) : String :=
  ⟨s.data.take n⟩

/-- Nonempty run of decimal digits evaluated as a natural number, used by
the model of Python `int`. -/
def parseDigits (cs : List Char) : Option Nat :=
  if cs.isEmpty then none
  else if cs.all Char.isDigit then
    some (cs.foldl (fun a c => a * 10 + (c.toNat - 48)) 0)
  else none

/-- Model of Python `int(s)` for base 10: surrounding whitespace is
stripped, an optional sign is allowed, and anything else raises
`ValueError` (modelled as `Except.error`).  Digit-group underscores,
which cannot occur in an HTTP `content-length` header, are not
modelled. -/
def pyInt (s : String) : Except String Int :=
  match trim s.data with
  | '-' :: rest =>
    match parseDigits rest with
    | some v => .ok (-(v : Int))
    | none => .error ("invalid literal for int() with base 10: " ++ s)
  | '+' :: rest =>
    match parseDigits rest with
    | some v => .ok (v : Int)
    | none => .error ("invalid literal for int() with base 10: " ++ s)
  | other =>
    match parseDigits other with
    | some v => .ok (v : Int)
    | none => .error ("invalid literal for int() with base 10: " ++ s)

/-! ## Data model (`snapshot_url.py`, lines 20-32) -/

deriving instance DecidableEq for Except

/-- Identity and payload of a Playwright `Request` handle.  The `id` field
stands for Python object identity, by which the source compares request
handles. -/
structure ReqInfo where
  id : Nat
  method : String
  url : String
  postDataResult : Except String (Option String) := .ok none
deriving DecidableEq

/-- Identity and payload of a Playwright `Response` handle: the
originating request handle, the status, the two headers the source reads,
and the outcome of `await response.text()`. -/
structure Resp where
  request : ReqInfo
  status : Nat
  contentTypeHeader : Option String := none
  contentLengthHeader : Option String := none
  textResult : Except String String := .error "body unavailable"
deriving DecidableEq

/-- The `NetworkRequest` dataclass of the source (lines 20-25). -/
structure NetworkRequest where
  request : Option ReqInfo := none
  response : Option Resp := none
  request_body : Option String := none
  response_body : Option String := none
deriving DecidableEq

/-- A console message as read by `format_console`: the `type` and `text`
attributes (`getattr` defaults folded into field defaults). -/
structure ConsoleMsg where
  type : String := "log"
  text : String
deriving DecidableEq

/-- An `mcp.types.TextContent` value; the source always passes
`type="text"`, so only the text payload is modelled. -/
structure TextContent where
  text : String
deriving DecidableEq

/-- A parsed element reference, the `{"ref": ..., "element": ...}` dict
built by `parse_refs`. -/
structure RefEntry where
  ref : List Char
  element : List Char
deriving DecidableEq

/-! ## Pure helpers of the source (`snapshot_url.py`, lines 35-102) -/

/-- Model of Python `str.startswith`. -/
def strStartsWith (s pre : String) : Bool :=
  pre.data.isPrefixOf s.data

/-- Source lines 35-39: `should_show_content`. -/
def should_show_content (content_type : String) (content_length : Int) : Bool :=
  content_length ≤ 50000 &&
    (strStartsWith content_type "application/json" ||
     strStartsWith content_type "text/" ||
     strStartsWith content_type "application/xml")

/-- The lines `format_requests` (source lines 47-54) contributes for one
record: nothing without a request handle; otherwise the method/url line,
the status line (`Pending` when no response is attached), and, only when
the captured body summary is truthy (present and nonempty), the body line
truncated to 200 characters plus an ellipsis. -/
def formatRequestLines (req : NetworkRequest) : List String :=
  match req.request with
  | none => []
  | some r =>
    ["🌐 " ++ r.method ++ " " ++ r.url,
     "   Status: " ++
       (match req.response with
        | some resp => toString resp.status
        | none => "Pending")] ++
    (match req.response_body with
     | some b => if b.data.isEmpty then [] else ["   Response: " ++ strTake b 200 ++ "..."]
     | none => [])

/-- Source lines 42-55: `format_requests`. -/
def format_requests (requests : List NetworkRequest) : String :=
  if requests.isEmpty then "No requests captured"
  else String.intercalate "\n" (requests.foldr (fun r acc => formatRequestLines r ++ acc) [])

/-- Source lines 58-66: `format_console`. -/
def format_console (messages : List ConsoleMsg) : String :=
  if messages.isEmpty then "No console messages"
  else
    String.intercalate "\n"
      (messages.map (fun m => "🖥️ [" ++ m.type.toUpper ++ "] " ++ m.text))

/-- The four interactivity keywords of `add_element_refs` (line 76). -/
def keywords : List (List Char) :=
  ["button".data, "link".data, "input".data, "textbox".data]

/-- The interactivity heuristic of `add_element_refs`: some keyword occurs
in the lowercased line. -/
def isInteractive (line : List Char) : Bool :=
  keywords.any (fun kw => containsSub (lower line) kw)

/-- The literal marker `"[ref="`. -/
def refMark : List Char :=
  ['[', 'r', 'e', 'f', '=']

/-- The suffix ` [ref=N]` appended to a matched line (line 78). -/
def refTag (n : Nat) : List Char :=
  ' ' :: refMark ++ natDigits n ++ [']']

/-- The annotation loop of `add_element_refs` (lines 73-79): walk the
lines, appending ` [ref=k]` to each interactive line and incrementing the
counter once per matched line. -/
def annotate : List (List Char) → Nat → List (List Char)
  | [], _ => []
  | l :: ls, k =>
    if isInteractive l then (l ++ refTag k) :: annotate ls (k + 1)
    else l :: annotate ls k

/-- Source lines 69-81: `add_element_refs`. -/
def add_element_refs (snapshot : List Char) : List Char :=
  joinLines (annotate (splitLines snapshot) 1)

/-- One iteration of the `parse_refs` loop (source lines 86-96): the
`"[ref=" in line` guard is the success of `findSub` (Python's `in` agrees
with `find`), `ref_start`/`ref_end` are the two `find` results, and the
entry is produced only when `ref_end > ref_start` (Python's `-1` for a
missing `]` is the `none` branch). -/
def parseRefLine? (line : List Char) : Option RefEntry :=
  match findSub line refMark with
  | none => none
  | some idx =>
    let ref_start := idx + 5
    match findFrom line [']'] ref_start with
    | none => none
    | some ref_end =>
      if ref_start < ref_end then
        some ⟨(line.drop ref_start).take (ref_end - ref_start), trim (line.take idx)⟩
      else none

/-- Source lines 84-97: `parse_refs`. -/
def parse_refs (snapshot : List Char) : List RefEntry :=
  (splitLines snapshot).filterMap parseRefLine?

/-- Modelled from the spec: the scheme/netloc components produced by the
standard-library `urllib.parse.urlparse` collaborator, which is not part
of this repository.  The spec's contract: the input "parses into a scheme
and a network-location component". -/
structure ParsedUrl where
  scheme : String
  netloc : String
deriving DecidableEq

/-- Characters allowed after the first character of a URL scheme. -/
def schemeChar (c : Char) : Bool :=
  c.isAlphanum || c == '+' || c == '-' || c == '.'

/-- Modelled from the spec: scheme extraction of the standard-library URL
parser.  A scheme is recognised when a colon occurs at a positive index,
the first character is an ASCII letter, and every character before the
colon is a scheme character; the scheme is lowercased and consumed,
otherwise the input is left whole with an empty scheme. -/
def splitScheme (cs : List Char) : List Char × List Char :=
  match findSub cs [':'] with
  | some i =>
    if 0 < i then
      let pre := cs.take i
      match pre with
      | c :: _ =>
        if c.isAlpha && pre.all schemeChar then (lower pre, cs.drop (i + 1))
        else ([], cs)
      | [] => ([], cs)
    else ([], cs)
  | none => ([], cs)

/-- Modelled from the spec: the standard-library URL parser restricted to
the two components the validator reads.  After scheme removal, a netloc is
present exactly when the remainder starts with `//` and extends to the
first of `/`, `?`, `#`; the model is total (no error outcome). -/
def urlparse (url : String) : ParsedUrl :=
  let p := splitScheme url.data
  let netloc :=
    if p.2.take 2 = ['/', '/'] then
      (p.2.drop 2).takeWhile (fun c => !(c == '/' || c == '?' || c == '#'))
    else []
  { scheme := ⟨p.1⟩, netloc := ⟨netloc⟩ }

/-- Source lines 100-102: `is_valid_url`.  Python's
`all([parsed.scheme, parsed.netloc])` is string truthiness: both
components nonempty. -/
def is_valid_url (url : String) : Bool :=
  let parsed := urlparse url
  !parsed.scheme.data.isEmpty && !parsed.netloc.data.isEmpty

/-! ## Network recorder (`snapshot_url.py`, lines 135-167) -/

/-- The request-body retrieval of `handle_request` (lines 136-141): only
POST/PUT/PATCH methods are attempted, and a retrieval failure is
swallowed, leaving the body absent. -/
def requestBodyOf (req : ReqInfo) : Option String :=
  if ["POST", "PUT", "PATCH"].contains req.method.toUpper then
    match req.postDataResult with
    | .ok d => d
    | .error _ => none
  else none

/-- Source lines 135-144: `handle_request` appends a fresh record. -/
def handle_request (req : ReqInfo) (records : List NetworkRequest) : List NetworkRequest :=
  records ++ [{ request := some req, request_body := requestBodyOf req }]

/-- The matching test of the `handle_response` loop (line 148):
`entry.request == response.request and not entry.response`. -/
def isPendingFor (resp : Resp) (entry : NetworkRequest) : Bool :=
  decide (entry.request = some resp.request) && entry.response.isNone

/-- The body summary `handle_response` stores (lines 150-163): parse the
`content-length` header with `int` (missing header read as "0"), then
either the decoded text body or the type/size placeholder; any raised
error (unparsable header, failing body read) is replaced by the fixed
error placeholder. -/
def computeBody (resp : Resp) : String :=
  let content_type := resp.contentTypeHeader.getD ""
  match pyInt (resp.contentLengthHeader.getD "0") with
  | .error _ => "[Error reading response]"
  | .ok content_length =>
    if should_show_content content_type content_length then
      match resp.textResult with
      | .ok t => t
      | .error _ => "[Error reading response]"
    else
      "[" ++ content_type ++ " - " ++ toString content_length ++ " bytes]"

/-- The mutation `handle_response` performs on the matched record. -/
def attachResp (resp : Resp) (entry : NetworkRequest) : NetworkRequest :=
  { entry with response := some resp, response_body := some (computeBody resp) }

/-- Source lines 146-164: `handle_response` scans the records in arrival
order, mutates the first pending record whose request handle matches, and
breaks; with no match the record list is unchanged. -/
def handle_response (resp : Resp) : List NetworkRequest → List NetworkRequest
  | [] => []
  | entry :: rest =>
    if isPendingFor resp entry then attachResp resp entry :: rest
    else entry :: handle_response resp rest

/-- A network event as delivered by the page to the two handlers. -/
inductive NetEvent where
  | request (req : ReqInfo)
  | response (resp : Resp)
deriving DecidableEq

/-- Dispatch of one delivered event to the matching handler. -/
def stepEvent (records : List NetworkRequest) (ev : NetEvent) : List NetworkRequest :=
  match ev with
  | .request r => handle_request r records
  | .response r => handle_response r records

/-- The record list after the page delivered a sequence of events to the
handlers registered on an initially empty list. -/
def processEvents (events : List NetEvent) : List NetworkRequest :=
  events.foldl stepEvent []

/-! ## Orchestrator (`snapshot_url.py`, lines 105-228) -/

/-- Outcomes of the awaited browser-collaborator operations during one
invocation, in program order.  An `Except.error` value models the awaited
call raising an exception with that description. -/
structure Env where
  launch : Except String Unit
  new_context : Except String Unit
  new_page : Except String Unit
  goto : Except String Unit
  wait_load : Except String Unit
  wait_selector : Except String Unit
  aria_snapshot : Except String String
  page_title : Except String String
  page_url : String
  events : List NetEvent
  console_events : List ConsoleMsg
  context_close : Except String Unit

/-- Whether an awaited step succeeded. -/
def isOkE (e : Except String Unit) : Bool :=
  match e with
  | .ok _ => true
  | .error _ => false

/-- What one invocation of `website_snapshot` did: the returned value (an
`Except.error` models an exception escaping the function uncaught), and
the observable browser side effects. -/
structure SnapshotOutcome where
  result : Except String (List TextContent)
  launchAttempted : Bool
  subscribed : Bool
  navigationAttempted : Bool
  browserCloses : Nat
deriving DecidableEq

/-- The body of the `try` block (source lines 121-223): context and page
creation, handler registration, navigation, the load waits (the selector
wait of lines 173-178 is best-effort: either arm of its `try`/`except`
leaves no trace in the result), snapshot capture, report assembly, and
context close.  The first raising step aborts with its error. -/
def captureSteps (env : Env) : Except String (List TextContent) := do
  let _ ← env.new_context
  let _ ← env.new_page
  let network_requests := processEvents env.events
  let console_messages := env.console_events
  let _ ← env.goto
  let _ ← env.wait_load
  let _ := env.wait_selector
  let aria ← env.aria_snapshot
  let snapshot_with_refs : String := ⟨add_element_refs aria.data⟩
  let element_refs := parse_refs snapshot_with_refs.data
  let title ← env.page_title
  let output_parts : List String :=
    ["🔍 " ++ title,
     "📍 " ++ env.page_url,
     "",
     "🎭 Accessibility Snapshot:",
     snapshot_with_refs,
     "",
     "🌐 Network Requests:",
     format_requests network_requests,
     "",
     "🖥️ Console:",
     format_console console_messages]
  let summary_parts : List String :=
    [toString element_refs.length ++ " elements",
     toString (network_requests.filter (fun r => r.request.isSome)).length ++ " requests",
     toString console_messages.length ++ " console messages"]
  let _ ← env.context_close
  pure
    [⟨"✅ Captured snapshot with " ++ String.intercalate ", " summary_parts⟩,
     ⟨String.intercalate "\n" output_parts⟩,
     ⟨"🎯 Element References:\n" ++
        String.intercalate "\n"
          (element_refs.map (fun r => "[ref=" ++ String.mk r.ref ++ "]: " ++ String.mk r.element))⟩]

/-- Source lines 105-228: `website_snapshot`.  An invalid URL
short-circuits before any browser work.  The launch happens before the
`try` block, so a launch failure propagates uncaught and the `finally`
(which closes the browser) never runs.  After a successful launch, any
error raised inside the `try` is caught and turned into the single
`Failed` message, and the `finally` closes the browser exactly once on
every path. -/
def website_snapshot (env : Env) (target_url : String) : SnapshotOutcome :=
  if !is_valid_url target_url then
    { result := .ok [⟨"Url must be valid, example: https://example.com"⟩],
      launchAttempted := false, subscribed := false,
      navigationAttempted := false, browserCloses := 0 }
  else
    match env.launch with
    | .error e =>
      { result := .error e, launchAttempted := true, subscribed := false,
        navigationAttempted := false, browserCloses := 0 }
    | .ok _ =>
      { result := .ok
          (match captureSteps env with
           | .ok texts => texts
           | .error e => [⟨"❌ Failed: " ++ e⟩]),
        launchAttempted := true,
        subscribed := isOkE env.new_context && isOkE env.new_page,
        navigationAttempted := isOkE env.new_context && isOkE env.new_page,
        browserCloses := 1 }

/-! ## Infrastructure lemmas: `findSub`, prefixes, digits -/

theorem isPrefixOf_self_append (p t : List Char) : p.isPrefixOf (p ++ t) = true := by
  induction p with
  | nil => simp [List.isPrefixOf]
  | cons c p ih => simp [List.isPrefixOf, ih]

theorem isPrefixOf_of_append_of_le (p a b : List Char)
    (hl : p.length ≤ a.length) (h : p.isPrefixOf (a ++ b) = true) :
    p.isPrefixOf a = true := by
  induction a generalizing p with
  | nil =>
    have : p = [] := List.length_eq_zero.mp (Nat.le_zero.mp hl)
    subst this; rfl
  | cons x a ih =>
    cases p with
    | nil => rfl
    | cons y p =>
      simp only [List.cons_append, List.isPrefixOf, Bool.and_eq_true] at h ⊢
      exact ⟨h.1, ih p (Nat.le_of_succ_le_succ hl) h.2⟩

theorem isPrefixOf_drop_of_append (p a b : List Char)
    (hl : a.length < p.length) (h : p.isPrefixOf (a ++ b) = true) :
    (p.drop a.length).isPrefixOf b = true := by
  induction a generalizing p with
  | nil => simpa using h
  | cons x a ih =>
    cases p with
    | nil => simp at hl
    | cons y p =>
      simp only [List.cons_append, List.isPrefixOf, Bool.and_eq_true] at h
      simpa using ih p (Nat.lt_of_succ_lt_succ hl) h.2

theorem drop_append_of_le (l b : List Char) (j : Nat) (h : j ≤ l.length) :
    (l ++ b).drop j = l.drop j ++ b := by
  induction l generalizing j with
  | nil =>
    have : j = 0 := Nat.le_zero.mp h
    subst this; simp
  | cons c l ih =>
    cases j with
    | zero => simp
    | succ j => simpa using ih j (Nat.le_of_succ_le_succ h)

theorem findSub_none (s pat : List Char) (h : findSub s pat = none) :
    ∀ j, pat.isPrefixOf (s.drop j) = false := by
  induction s with
  | nil =>
    intro j
    rw [findSub] at h
    split at h
    · simp at h
    · rename_i hc
      simp only [Bool.not_eq_true] at hc
      simpa using hc
  | cons c rest ih =>
    intro j
    rw [findSub] at h
    split at h
    · simp at h
    · rename_i hc
      simp only [Bool.not_eq_true] at hc
      simp only [Option.map_eq_none'] at h
      cases j with
      | zero => simpa using hc
      | succ j => simpa using ih h j

theorem findSub_eq_some_of (s pat : List Char) (k : Nat)
    (hk : pat.isPrefixOf (s.drop k) = true)
    (hmin : ∀ j, j < k → pat.isPrefixOf (s.drop j) = false) :
    findSub s pat = some k := by
  induction s generalizing k with
  | nil =>
    cases k with
    | zero =>
      rw [findSub]
      simp only [List.drop_nil] at hk
      simp [hk]
    | succ k =>
      exfalso
      have h0 : pat.isPrefixOf (([] : List Char).drop 0) = false :=
        hmin 0 (Nat.succ_pos k)
      simp only [List.drop_nil] at hk h0
      rw [hk] at h0
      simp at h0
  | cons c rest ih =>
    cases k with
    | zero =>
      rw [findSub]
      simp only [List.drop_zero] at hk
      simp [hk]
    | succ k =>
      rw [findSub]
      have h0 : pat.isPrefixOf (c :: rest) = false := by
        simpa using hmin 0 (Nat.succ_pos k)
      simp only [h0]
      have : findSub rest pat = some k := by
        apply ih k
        · simpa using hk
        · intro j hj
          simpa using hmin (j + 1) (Nat.succ_lt_succ hj)
      simp [this]

theorem digitsAux_all_digits (fuel : Nat) :
    ∀ (n : Nat) (acc : List Char), (∀ c ∈ acc, c.isDigit = true) →
      ∀ c ∈ digitsAux fuel n acc, c.isDigit = true := by
  induction fuel with
  | zero => intro n acc hacc; simpa [digitsAux] using hacc
  | succ fuel ih =>
    intro n acc hacc c hc
    have hd : (digitChar10 n).isDigit = true := by
      have hm : n % 10 < 10 := Nat.mod_lt _ (by omega)
      unfold digitChar10
      generalize n % 10 = m at hm ⊢
      interval_cases m <;> decide
    have hacc' : ∀ c ∈ digitChar10 n :: acc, c.isDigit = true := by
      intro c hc
      rcases List.mem_cons.mp hc with h | h
      · exact h ▸ hd
      · exact hacc c h
    rw [digitsAux] at hc
    split at hc
    · exact hacc' c hc
    · exact ih (n / 10) (digitChar10 n :: acc) hacc' c hc

theorem natDigits_all_digits (n : Nat) : ∀ c ∈ natDigits n, c.isDigit = true :=
  digitsAux_all_digits (n + 1) n [] (by intro c hc; simp at hc)

theorem digitsAux_length_le (fuel : Nat) :
    ∀ (n : Nat) (acc : List Char), acc.length ≤ (digitsAux fuel n acc).length := by
  induction fuel with
  | zero => intro n acc; simp [digitsAux]
  | succ fuel ih =>
    intro n acc
    rw [digitsAux]
    split
    · simp
    · exact Nat.le_trans (by simp) (ih (n / 10) (digitChar10 n :: acc))

theorem natDigits_length_pos (n : Nat) : 0 < (natDigits n).length := by
  unfold natDigits
  rw [digitsAux]
  split
  · simp
  · exact Nat.lt_of_lt_of_le (by simp) (digitsAux_length_le n (n / 10) [digitChar10 n])

theorem isDigit_ne_newline {c : Char} (h : c.isDigit = true) : c ≠ '\n' := by
  intro he; subst he; simp at h

theorem isDigit_ne_rbracket {c : Char} (h : c.isDigit = true) : c ≠ ']' := by
  intro he; subst he; simp at h

/-! ## Infrastructure lemmas: `splitLines` and `joinLines` -/

theorem splitLines_ne_nil (s : List Char) : splitLines s ≠ [] := by
  cases s with
  | nil => simp [splitLines]
  | cons c rest =>
    rw [splitLines]
    split
    · simp
    · split <;> simp

theorem mem_splitLines_no_newline (s : List Char) :
    ∀ l ∈ splitLines s, '\n' ∉ l := by
  induction s with
  | nil => intro l hl; simp [splitLines] at hl; simp [hl]
  | cons c rest ih =>
    intro l hl
    rw [splitLines] at hl
    split at hl
    · rcases List.mem_cons.mp hl with h | h
      · simp [h]
      · exact ih l h
    · rename_i hc
      rcases hsp : splitLines rest with _ | ⟨l₀, ls₀⟩
      · exact absurd hsp (splitLines_ne_nil rest)
      · rw [hsp] at hl
        rcases List.mem_cons.mp hl with h | h
        · subst h
          intro hmem
          rcases List.mem_cons.mp hmem with h | h
          · exact hc h.symm
          · exact ih l₀ (hsp ▸ List.mem_cons_self l₀ ls₀) h
        · exact ih l (hsp ▸ List.mem_cons_of_mem l₀ h)

theorem splitLines_of_no_newline (l : List Char) (h : '\n' ∉ l) :
    splitLines l = [l] := by
  induction l with
  | nil => rfl
  | cons c rest ih =>
    rw [splitLines]
    have hc : ¬ c = '\n' := fun he => h (he ▸ List.mem_cons_self c rest)
    simp only [hc, if_false]
    rw [ih (fun hm => h (List.mem_cons_of_mem c hm))]

theorem splitLines_append_newline (l r : List Char) (h : '\n' ∉ l) :
    splitLines (l ++ '\n' :: r) = l :: splitLines r := by
  induction l with
  | nil => simp [splitLines]
  | cons c rest ih =>
    have hc : ¬ c = '\n' := fun he => h (he ▸ List.mem_cons_self c rest)
    rw [List.cons_append, splitLines]
    simp only [hc, if_false]
    rw [ih (fun hm => h (List.mem_cons_of_mem c hm))]

theorem splitLines_joinLines (ls : List (List Char)) (hne : ls ≠ [])
    (h : ∀ l ∈ ls, '\n' ∉ l) : splitLines (joinLines ls) = ls := by
  induction ls with
  | nil => exact absurd rfl hne
  | cons l ls ih =>
    cases ls with
    | nil =>
      rw [joinLines]
      exact splitLines_of_no_newline l (h l (List.mem_cons_self l []))
    | cons l' ls' =>
      have hj : joinLines (l :: l' :: ls') = l ++ '\n' :: joinLines (l' :: ls') := rfl
      rw [hj]
      rw [splitLines_append_newline _ _ (h l (List.mem_cons_self _ _))]
      rw [ih (List.cons_ne_nil l' ls') (fun x hx => h x (List.mem_cons_of_mem l hx))]

/-! ## Infrastructure lemmas: `annotate` -/

theorem refTag_shape (n : Nat) :
    refTag n = [' ', '[', 'r', 'e', 'f', '='] ++ (natDigits n ++ [']']) := by
  simp [refTag, refMark]

theorem refTag_no_newline (n : Nat) : '\n' ∉ refTag n := by
  intro hmem
  rw [refTag_shape] at hmem
  rcases List.mem_append.mp hmem with h | h
  · exact absurd h (by decide)
  · rcases List.mem_append.mp h with h | h
    · exact isDigit_ne_newline (natDigits_all_digits n _ h) rfl
    · exact absurd h (by decide)

theorem annotate_length (ls : List (List Char)) (k : Nat) :
    (annotate ls k).length = ls.length := by
  induction ls generalizing k with
  | nil => rfl
  | cons l ls ih =>
    rw [annotate]
    split
    · simp [ih]
    · simp [ih]

theorem annotate_ne_nil (ls : List (List Char)) (k : Nat) (h : ls ≠ []) :
    annotate ls k ≠ [] := by
  cases ls with
  | nil => exact absurd rfl h
  | cons l ls =>
    rw [annotate]
    split <;> simp

theorem annotate_no_newline (ls : List (List Char)) (k : Nat)
    (h : ∀ l ∈ ls, '\n' ∉ l) : ∀ l' ∈ annotate ls k, '\n' ∉ l' := by
  induction ls generalizing k with
  | nil => intro l' hl'; simp [annotate] at hl'
  | cons l ls ih =>
    intro l' hl'
    rw [annotate] at hl'
    split at hl'
    · rcases List.mem_cons.mp hl' with he | he
      · subst he
        intro hmem
        rcases List.mem_append.mp hmem with hm | hm
        · exact h l (List.mem_cons_self _ _) hm
        · exact refTag_no_newline k hm
      · exact ih (k + 1) (fun x hx => h x (List.mem_cons_of_mem l hx)) l' he
    · rcases List.mem_cons.mp hl' with he | he
      · exact he ▸ h l (List.mem_cons_self _ _)
      · exact ih k (fun x hx => h x (List.mem_cons_of_mem l hx)) l' he

theorem splitLines_add_element_refs (s : List Char) :
    splitLines (add_element_refs s) = annotate (splitLines s) 1 := by
  unfold add_element_refs
  apply splitLines_joinLines
  · exact annotate_ne_nil _ 1 (splitLines_ne_nil s)
  · exact annotate_no_newline _ 1 (mem_splitLines_no_newline s)

theorem annotate_getElem? (ls : List (List Char)) (k i : Nat) :
    (annotate ls k)[i]? = (ls[i]?).map (fun l =>
      if isInteractive l then l ++ refTag (k + (ls.take i).countP isInteractive)
      else l) := by
  induction ls generalizing k i with
  | nil => simp [annotate]
  | cons l ls ih =>
    rw [annotate]
    split
    next hint =>
      cases i with
      | zero => simp [hint]
      | succ i =>
        simp only [List.getElem?_cons_succ, ih (k + 1) i, List.take_succ_cons,
          List.countP_cons, hint, if_true]
        cases hx : ls[i]? with
        | none => simp
        | some x =>
          simp only [Option.map_some']
          have harith : k + 1 + (ls.take i).countP isInteractive
              = k + ((ls.take i).countP isInteractive + 1) := by omega
          simp [harith]
    next hint =>
      cases i with
      | zero => simp [hint]
      | succ i =>
        simp only [List.getElem?_cons_succ, ih k i, List.take_succ_cons,
          List.countP_cons, hint]
        simp

/-! ## Infrastructure lemmas: the annotated-line parse -/

theorem take_append_cons (l : List Char) (c : Char) (r : List Char) :
    (l ++ c :: r).take (l.length + 1) = l ++ [c] := by
  induction l with
  | nil => simp
  | cons x l ih => simpa using ih

theorem drop_append_left (l r : List Char) : (l ++ r).drop l.length = r := by
  induction l with
  | nil => simp
  | cons x l ih => simp [ih]

theorem take_append_left (l r : List Char) : (l ++ r).take l.length = l := by
  induction l with
  | nil => simp
  | cons x l ih => simp [ih]

theorem trimRight_append_space (x : List Char) : trimRight (x ++ [' ']) = trimRight x := by
  unfold trimRight
  have h : (x ++ [' ']).reverse = ' ' :: x.reverse := by simp
  rw [h, List.dropWhile_cons, if_pos (by decide)]

theorem trim_append_space (l : List Char) : trim (l ++ [' ']) = trim l := by
  unfold trim
  induction l with
  | nil =>
    simp only [List.nil_append]
    rw [List.dropWhile_cons, if_pos (by decide)]
  | cons c l ih =>
    rw [List.cons_append, List.dropWhile_cons, List.dropWhile_cons]
    by_cases hc : c.isWhitespace = true
    · rw [if_pos hc, if_pos hc]
      exact ih
    · rw [if_neg hc, if_neg hc, ← List.cons_append]
      exact trimRight_append_space (c :: l)

theorem findSub_bracket (ds : List Char) (h : ∀ c ∈ ds, c ≠ ']') :
    findSub (ds ++ [']']) [']'] = some ds.length := by
  induction ds with
  | nil =>
    simp only [List.nil_append]
    decide
  | cons d ds ih =>
    simp only [List.cons_append]
    rw [findSub]
    have hd : d ≠ ']' := h d (List.mem_cons_self _ _)
    have hpf : ([']'].isPrefixOf (d :: (ds ++ [']']))) = false := by
      simp [List.isPrefixOf]
      intro he
      exact absurd he.symm hd
    simp only [hpf, Bool.false_eq_true, if_false]
    rw [ih (fun c hc => h c (List.mem_cons_of_mem d hc))]
    rfl

theorem refMark_drop_not_space (k : Nat) (hk : k < 5) (s : List Char) :
    (refMark.drop k).isPrefixOf (' ' :: s) = false := by
  interval_cases k <;> rfl

theorem no_refMark_prefix_in_annotated (l : List Char) (n : Nat) (j : Nat)
    (hj : j ≤ l.length) (hnc : containsSub l refMark = false) :
    refMark.isPrefixOf ((l ++ refTag n).drop j) = false := by
  cases hp : refMark.isPrefixOf ((l ++ refTag n).drop j) with
  | false => rfl
  | true =>
    exfalso
    rw [drop_append_of_le _ _ j hj] at hp
    have htag : refTag n = ' ' :: (refMark ++ natDigits n ++ [']']) := by
      simp [refTag]
    by_cases hlen : refMark.length ≤ (l.drop j).length
    · have h1 : refMark.isPrefixOf (l.drop j) = true :=
        isPrefixOf_of_append_of_le _ _ _ hlen hp
      have h2 : findSub l refMark = none := by
        cases hs : findSub l refMark
        · rfl
        · rw [containsSub, hs] at hnc; simp at hnc
      have h3 := findSub_none l refMark h2 j
      rw [h1] at h3
      simp at h3
    · push_neg at hlen
      have h1 : (refMark.drop (l.drop j).length).isPrefixOf (refTag n) = true :=
        isPrefixOf_drop_of_append _ _ _ hlen hp
      have h5 : (l.drop j).length < 5 := by
        simpa [refMark] using hlen
      rw [htag] at h1
      rw [refMark_drop_not_space _ h5] at h1
      simp at h1

theorem findSub_annotated (l : List Char) (n : Nat)
    (hnc : containsSub l refMark = false) :
    findSub (l ++ refTag n) refMark = some (l.length + 1) := by
  apply findSub_eq_some_of
  · have : (l ++ refTag n) = (l ++ [' ']) ++ (refMark ++ (natDigits n ++ [']'])) := by
      simp [refTag_shape, refMark]
    rw [this]
    have hlen : (l ++ [' ']).length = l.length + 1 := by simp
    rw [← hlen, drop_append_left]
    exact isPrefixOf_self_append _ _
  · intro j hj
    exact no_refMark_prefix_in_annotated l n j (Nat.lt_succ_iff.mp hj) hnc

theorem parseRefLine?_clean (l : List Char) (hnc : containsSub l refMark = false) :
    parseRefLine? l = none := by
  unfold parseRefLine?
  have hn : findSub l refMark = none := by
    cases hs : findSub l refMark
    · rfl
    · rw [containsSub, hs] at hnc; simp at hnc
  rw [hn]

theorem parseRefLine?_annotated (l : List Char) (n : Nat)
    (hnc : containsSub l refMark = false) :
    parseRefLine? (l ++ refTag n) = some ⟨natDigits n, trim l⟩ := by
  have hfind := findSub_annotated l n hnc
  have hb : findSub (natDigits n ++ [']']) [']'] = some (natDigits n).length :=
    findSub_bracket _ (fun c hc => isDigit_ne_rbracket (natDigits_all_digits n c hc))
  have hdrop : (l ++ refTag n).drop (l.length + 1 + 5) = natDigits n ++ [']'] := by
    have hsh : l ++ refTag n = (l ++ (' ' :: refMark)) ++ (natDigits n ++ [']']) := by
      simp [refTag, refMark]
    have hlen : (l ++ (' ' :: refMark)).length = l.length + 1 + 5 := by
      simp [refMark]
    rw [hsh, ← hlen, drop_append_left]
  have htake : (l ++ refTag n).take (l.length + 1) = l ++ [' '] := by
    have hsh : l ++ refTag n = l ++ ' ' :: (refMark ++ natDigits n ++ [']']) := by
      simp [refTag]
    rw [hsh, take_append_cons]
  unfold parseRefLine?
  rw [hfind]
  simp only [findFrom, hdrop, hb, Option.map_some']
  rw [if_pos (by have := natDigits_length_pos n; omega)]
  rw [htake, trim_append_space]
  have harith : (natDigits n).length + (l.length + 1 + 5) - (l.length + 1 + 5)
      = (natDigits n).length := by omega
  rw [harith, take_append_left]

/-- Specification-level description of the annotated parse result, used to
state the round-trip theorem: one entry per interactive line, in input
order, with counter values from `k` upward and trimmed line text. -/
def refSpec : List (List Char) → Nat → List RefEntry
  | [], _ => []
  | l :: ls, k =>
    if isInteractive l then ⟨natDigits k, trim l⟩ :: refSpec ls (k + 1)
    else refSpec ls k

theorem filterMap_parse_annotate (ls : List (List Char)) (k : Nat)
    (h : ∀ l ∈ ls, containsSub l refMark = false) :
    (annotate ls k).filterMap parseRefLine? = refSpec ls k := by
  induction ls generalizing k with
  | nil => simp [annotate, refSpec]
  | cons l ls ih =>
    rw [annotate, refSpec]
    by_cases hint : isInteractive l = true
    · rw [if_pos hint, if_pos hint]
      rw [List.filterMap_cons_some (parseRefLine?_annotated l k (h l (List.mem_cons_self _ _)))]
      rw [ih (k + 1) (fun x hx => h x (List.mem_cons_of_mem l hx))]
    · rw [if_neg hint, if_neg hint]
      rw [List.filterMap_cons_none (parseRefLine?_clean l (h l (List.mem_cons_self _ _)))]
      exact ih k (fun x hx => h x (List.mem_cons_of_mem l hx))

theorem refSpec_length (ls : List (List Char)) (k : Nat) :
    (refSpec ls k).length = (ls.filter isInteractive).length := by
  induction ls generalizing k with
  | nil => rfl
  | cons l ls ih =>
    rw [refSpec]
    by_cases hint : isInteractive l = true
    · rw [if_pos hint, List.filter_cons_of_pos hint]
      simp [ih]
    · rw [if_neg hint, List.filter_cons_of_neg (by simpa using hint)]
      exact ih k

theorem refSpec_getElem? (ls : List (List Char)) (k i : Nat) :
    (refSpec ls k)[i]? = ((ls.filter isInteractive)[i]?).map
      (fun l => (⟨natDigits (k + i), trim l⟩ : RefEntry)) := by
  induction ls generalizing k i with
  | nil => simp [refSpec]
  | cons l ls ih =>
    rw [refSpec]
    by_cases hint : isInteractive l = true
    · rw [if_pos hint, List.filter_cons_of_pos hint]
      cases i with
      | zero => simp
      | succ i =>
        simp only [List.getElem?_cons_succ, ih (k + 1) i]
        have harith : k + 1 + i = k + (i + 1) := by omega
        rw [harith]
    · rw [if_neg hint, List.filter_cons_of_neg (by simpa using hint)]
      exact ih k i

theorem parse_refs_add_element_refs (s : List Char)
    (h : ∀ l ∈ splitLines s, containsSub l refMark = false) :
    parse_refs (add_element_refs s) = refSpec (splitLines s) 1 := by
  unfold parse_refs
  rw [splitLines_add_element_refs]
  exact filterMap_parse_annotate _ 1 h

/-! ## Infrastructure lemmas: the network recorder -/

theorem handle_response_set (resp : Resp) (recs : List NetworkRequest) (i : Nat)
    (entry : NetworkRequest) (hget : recs[i]? = some entry)
    (hpend : isPendingFor resp entry = true)
    (hmin : ∀ j, j < i → ∀ e, recs[j]? = some e → isPendingFor resp e = false) :
    handle_response resp recs = recs.set i (attachResp resp entry) := by
  induction recs generalizing i with
  | nil => simp at hget
  | cons e rest ih =>
    cases i with
    | zero =>
      simp only [List.getElem?_cons_zero, Option.some.injEq] at hget
      subst hget
      rw [handle_response, if_pos hpend]
      rfl
    | succ i =>
      have h0 : isPendingFor resp e = false := hmin 0 (Nat.succ_pos i) e (by simp)
      simp only [List.getElem?_cons_succ] at hget
      rw [handle_response, if_neg (by simp [h0])]
      rw [ih i hget (fun j hj e' hg => hmin (j + 1) (Nat.succ_lt_succ hj) e' (by simpa using hg))]
      rfl

theorem handle_response_no_match (resp : Resp) (recs : List NetworkRequest)
    (h : ∀ e ∈ recs, isPendingFor resp e = false) :
    handle_response resp recs = recs := by
  induction recs with
  | nil => rfl
  | cons e rest ih =>
    rw [handle_response, if_neg (by simp [h e (List.mem_cons_self _ _)])]
    rw [ih (fun x hx => h x (List.mem_cons_of_mem e hx))]

theorem handle_response_preserves_completed (resp : Resp) (recs : List NetworkRequest)
    (i : Nat) (e : NetworkRequest) (hget : recs[i]? = some e)
    (hsome : e.response.isSome = true) :
    (handle_response resp recs)[i]? = some e := by
  induction recs generalizing i with
  | nil => simp at hget
  | cons x rest ih =>
    rw [handle_response]
    by_cases hp : isPendingFor resp x = true
    · rw [if_pos hp]
      cases i with
      | zero =>
        simp only [List.getElem?_cons_zero, Option.some.injEq] at hget
        subst hget
        exfalso
        simp only [isPendingFor, Bool.and_eq_true] at hp
        rw [Option.isNone_iff_eq_none.mp hp.2] at hsome
        simp at hsome
      | succ i => simpa using hget
    · rw [if_neg hp]
      cases i with
      | zero => simpa using hget
      | succ i =>
        simp only [List.getElem?_cons_succ] at hget ⊢
        exact ih i hget

theorem stepEvent_preserves_completed (recs : List NetworkRequest) (ev : NetEvent)
    (i : Nat) (e : NetworkRequest) (hget : recs[i]? = some e)
    (hsome : e.response.isSome = true) :
    (stepEvent recs ev)[i]? = some e := by
  cases ev with
  | request r =>
    have hst : stepEvent recs (NetEvent.request r)
        = recs ++ [{ request := some r, request_body := requestBodyOf r }] := rfl
    have hi : i < recs.length := by
      by_contra hlt
      push_neg at hlt
      rw [List.getElem?_eq_none hlt] at hget
      simp at hget
    rw [hst, List.getElem?_append, if_pos hi]
    exact hget
  | response r => exact handle_response_preserves_completed r recs i e hget hsome

theorem foldl_stepEvent_preserves_completed (evs : List NetEvent)
    (recs : List NetworkRequest) (i : Nat) (e : NetworkRequest)
    (hget : recs[i]? = some e) (hsome : e.response.isSome = true) :
    (evs.foldl stepEvent recs)[i]? = some e := by
  induction evs generalizing recs with
  | nil => simpa using hget
  | cons ev evs ih =>
    rw [List.foldl_cons]
    exact ih (stepEvent recs ev) (stepEvent_preserves_completed recs ev i e hget hsome)

/-! ## Small bridging lemmas for the claim statements -/

theorem empty_string_data : ("" : String).data = [] := rfl

theorem isEmpty_false_iff (l : List Char) : l.isEmpty = false ↔ l ≠ [] := by
  cases l <;> simp

theorem string_ne_empty_iff (s : String) : s ≠ "" ↔ s.data ≠ [] := by
  cases s with
  | mk data =>
    constructor
    · intro h hd
      apply h
      rw [show ("" : String) = String.mk [] from rfl]
      exact congrArg String.mk hd
    · intro h he
      apply h
      rw [show ("" : String) = ⟨[]⟩ from rfl] at he
      injection he

/-! ## Sample values used by the witness theorems -/

/-- A browser environment in which every awaited operation succeeds. -/
def sampleEnv : Env :=
  { launch := .ok (), new_context := .ok (), new_page := .ok (), goto := .ok (),
    wait_load := .ok (), wait_selector := .ok (), aria_snapshot := .ok "",
    page_title := .ok "", page_url := "", events := [], console_events := [],
    context_close := .ok () }

/-- A sample GET request handle. -/
def sampleReq : ReqInfo :=
  { id := 0, method := "GET", url := "https://api.example.com/data", postDataResult := .ok none }

/-- A sample JSON response to `sampleReq`. -/
def sampleResp : Resp :=
  { request := sampleReq, status := 200, contentTypeHeader := some "application/json",
    contentLengthHeader := some "100", textResult := .ok "{}" }

/-! ## Claim theorems -/

/-- C5: for every input string, `is_valid_url` returns true exactly when the
parser produced a nonempty scheme and a nonempty network location; the
parser model is total, so no input raises an error. -/
theorem c5_is_valid_url_iff (url : String) :
    is_valid_url url = true ↔
      ((urlparse url).scheme ≠ "" ∧ (urlparse url).netloc ≠ "") := by
  unfold is_valid_url
  simp only [Bool.and_eq_true, Bool.not_eq_true']
  rw [isEmpty_false_iff, isEmpty_false_iff]
  rw [← string_ne_empty_iff, ← string_ne_empty_iff]

/-- C5 witness: the validator contract evaluated at a well-formed absolute
URL and at a relative-looking input. -/
theorem c5_witness :
    (is_valid_url "https://example.com" = true ↔
      ((urlparse "https://example.com").scheme ≠ "" ∧
       (urlparse "https://example.com").netloc ≠ ""))
    ∧ is_valid_url "https://example.com" = true
    ∧ is_valid_url "not-a-valid-url" = false :=
  ⟨c5_is_valid_url_iff "https://example.com", by decide, by decide⟩

/-- C6: when the validator rejects the target URL, `website_snapshot`
returns exactly one text unit with the fixed validation message and
performs no browser work at all: no launch, no subscription, no
navigation, and no browser close. -/
theorem c6_invalid_url_short_circuit (env : Env) (url : String)
    (h : is_valid_url url = false) :
    website_snapshot env url =
      { result := .ok [⟨"Url must be valid, example: https://example.com"⟩],
        launchAttempted := false, subscribed := false,
        navigationAttempted := false, browserCloses := 0 } := by
  unfold website_snapshot
  rw [h]
  rfl

/-- C6 witness: the invalid-input scenario of the spec, at the concrete
input "not-a-valid-url". -/
theorem c6_witness :
    website_snapshot sampleEnv "not-a-valid-url" =
      { result := .ok [⟨"Url must be valid, example: https://example.com"⟩],
        launchAttempted := false, subscribed := false,
        navigationAttempted := false, browserCloses := 0 } :=
  c6_invalid_url_short_circuit sampleEnv "not-a-valid-url" (by decide)

/-- C9: the empty network record list formats to the literal fallback
"No requests captured" and the empty console list to
"No console messages". -/
theorem c9_empty_fallbacks :
    format_requests [] = "No requests captured"
    ∧ format_console [] = "No console messages" :=
  ⟨rfl, rfl⟩

/-- C10: a record whose captured response-body summary is the empty string
formats exactly like a record with no captured body: the method and status
lines are emitted (the status of the attached response is shown) but no
"Response:" line appears. -/
theorem c10_empty_body_like_none (entry : NetworkRequest) (r : ReqInfo) (resp : Resp)
    (hreq : entry.request = some r) (hresp : entry.response = some resp)
    (hbody : entry.response_body = some "") :
    formatRequestLines entry = formatRequestLines { entry with response_body := none }
    ∧ formatRequestLines entry
        = ["🌐 " ++ r.method ++ " " ++ r.url, "   Status: " ++ toString resp.status] := by
  constructor
  · simp [formatRequestLines, hreq, hresp, hbody, empty_string_data]
  · simp [formatRequestLines, hreq, hresp, hbody, empty_string_data]

/-- Sample record for the C10 witness: response attached, captured body
summary empty. -/
def c10entry : NetworkRequest :=
  { request := some sampleReq, response := some sampleResp, response_body := some "" }

/-- C10 witness: the empty-summary record evaluated concretely. -/
theorem c10_witness :
    formatRequestLines c10entry = formatRequestLines { c10entry with response_body := none }
    ∧ formatRequestLines c10entry
        = ["🌐 GET https://api.example.com/data", "   Status: 200"] := by
  have h := c10_empty_body_like_none c10entry sampleReq sampleResp rfl rfl rfl
  exact ⟨h.1, h.2.trans (by decide)⟩

/-- C7: in the per-record network formatting, a record with a request
handle and no attached response yields the literal line
"   Status: Pending", and a captured body summary longer than 200
characters yields a "Response:" line holding exactly the first 200
characters of the summary followed by the ellipsis marker. -/
theorem c7_pending_and_truncation (entry : NetworkRequest) (r : ReqInfo)
    (hreq : entry.request = some r) :
    (entry.response = none → "   Status: Pending" ∈ formatRequestLines entry)
    ∧ (∀ b : String, entry.response_body = some b → 200 < b.length →
        ("   Response: " ++ strTake b 200 ++ "...") ∈ formatRequestLines entry
        ∧ (strTake b 200).length = 200) := by
  constructor
  · intro hresp
    have hshape : formatRequestLines entry
        = ["🌐 " ++ r.method ++ " " ++ r.url, "   Status: " ++ "Pending"] ++
          (match entry.response_body with
           | some b => if b.data.isEmpty then []
                       else ["   Response: " ++ strTake b 200 ++ "..."]
           | none => []) := by
      unfold formatRequestLines
      rw [hreq, hresp]
    rw [hshape, show ("   Status: " ++ "Pending" : String) = "   Status: Pending" from rfl]
    exact List.mem_append_left _ (List.mem_cons_of_mem _ (List.mem_cons_self _ _))
  · intro b hbody hlen
    have hne : b.data.isEmpty = false := by
      cases hb : b.data with
      | nil =>
        exfalso
        have : b.length = 0 := by
          show b.data.length = 0
          rw [hb]
          rfl
        omega
      | cons c cs => rfl
    have hshape : formatRequestLines entry
        = ["🌐 " ++ r.method ++ " " ++ r.url,
           "   Status: " ++
             (match entry.response with
              | some resp => toString resp.status
              | none => "Pending")] ++
          ["   Response: " ++ strTake b 200 ++ "..."] := by
      unfold formatRequestLines
      rw [hreq, hbody]
      simp [hne]
    constructor
    · rw [hshape]
      exact List.mem_append_right _ (List.mem_cons_self _ _)
    · show (b.data.take 200).length = 200
      rw [List.length_take]
      have : 200 < b.data.length := hlen
      omega

/-- Sample record for the C7 witness: pending (no response) with a
201-character body summary. -/
def c7entry : NetworkRequest :=
  { request := some sampleReq, response := none,
    response_body := some (String.mk (List.replicate 201 'a')) }

set_option maxRecDepth 4096 in
/-- C7 witness: the pending-status line and the 200-character truncation
evaluated on a concrete record. -/
theorem c7_witness :
    "   Status: Pending" ∈ formatRequestLines c7entry
    ∧ ("   Response: " ++ strTake (String.mk (List.replicate 201 'a')) 200 ++ "...")
        ∈ formatRequestLines c7entry
    ∧ (strTake (String.mk (List.replicate 201 'a')) 200).length = 200 := by
  have h := c7_pending_and_truncation c7entry sampleReq rfl
  have h2 := h.2 (String.mk (List.replicate 201 'a')) rfl (by decide)
  exact ⟨h.1 rfl, h2.1, h2.2⟩

/-- C2: the body captured by `handle_response` for a matched pending
record is the full decoded text body exactly when the parsed
content-length (missing header read as "0") is at most 50000 and the
content-type starts with one of the three allowed prefixes; otherwise it
is the placeholder naming the content-type and byte length.  In
particular "application/json" at length 100 passes the policy,
"image/png" at length 10 does not, and any length above 50000 fails the
policy regardless of content-type. -/
theorem c2_body_inclusion_policy (resp : Resp) (entry : NetworkRequest)
    (rest : List NetworkRequest) (n : Int) (body : String)
    (hmatch : entry.request = some resp.request) (hnone : entry.response = none)
    (hlen : pyInt (resp.contentLengthHeader.getD "0") = .ok n)
    (htext : resp.textResult = .ok body) :
    handle_response resp (entry :: rest)
      = { entry with
          response := some resp,
          response_body := some
            (if should_show_content (resp.contentTypeHeader.getD "") n then body
             else "[" ++ resp.contentTypeHeader.getD "" ++ " - " ++ toString n ++ " bytes]") }
        :: rest
    ∧ should_show_content "application/json" 100 = true
    ∧ should_show_content "image/png" 10 = false
    ∧ (∀ ct m, 50000 < m → should_show_content ct m = false) := by
  refine ⟨?_, by decide, by decide, ?_⟩
  · have hpend : isPendingFor resp entry = true := by
      simp [isPendingFor, hmatch, hnone]
    rw [handle_response, if_pos hpend]
    unfold attachResp computeBody
    rw [hlen, htext]
  · intro ct m hm
    unfold should_show_content
    rw [decide_eq_false (by omega : ¬ (m ≤ 50000))]
    simp

/-- Sample record for the C2 witness: pending record for `sampleReq`. -/
def c2entry : NetworkRequest := { request := some sampleReq }

/-- C2 witness: the inclusion policy evaluated on a concrete JSON
response, plus the three concrete policy instances. -/
theorem c2_witness :
    handle_response sampleResp [c2entry]
      = [{ request := some sampleReq, response := some sampleResp,
           response_body := some "{}" }]
    ∧ should_show_content "application/json" 100 = true
    ∧ should_show_content "image/png" 10 = false
    ∧ should_show_content "text/html" 50001 = false := by
  have h := c2_body_inclusion_policy sampleResp c2entry [] 100 "{}" rfl rfl (by decide) rfl
  exact ⟨h.1.trans (by decide), h.2.1, h.2.2.1, h.2.2.2 "text/html" 50001 (by omega)⟩

/-- C4: response matching in the network recorder.  First, a response is
attached to precisely the first record in arrival order whose request
handle matches and which has no response yet, leaving all other records
untouched (`List.set` at that one index); second, a response with no
pending matching record (already matched or never recorded) leaves the
record list unchanged; third, once a record carries a response, no later
request or response event ever changes it, so at most one response ever
attaches to a given record. -/
theorem c4_response_attachment (resp : Resp) (recs : List NetworkRequest) :
    (∀ (i : Nat) (entry : NetworkRequest), recs[i]? = some entry →
      isPendingFor resp entry = true →
      (∀ j, j < i → ∀ e, recs[j]? = some e → isPendingFor resp e = false) →
      handle_response resp recs = recs.set i (attachResp resp entry))
    ∧ ((∀ e ∈ recs, isPendingFor resp e = false) → handle_response resp recs = recs)
    ∧ (∀ (evs : List NetEvent) (i : Nat) (e : NetworkRequest),
        recs[i]? = some e → e.response.isSome = true →
        (evs.foldl stepEvent recs)[i]? = some e) := by
  refine ⟨?_, ?_, ?_⟩
  · intro i entry h1 h2 h3
    exact handle_response_set resp recs i entry h1 h2 h3
  · intro h
    exact handle_response_no_match resp recs h
  · intro evs i e h1 h2
    exact foldl_stepEvent_preserves_completed evs recs i e h1 h2

/-- A record that already carries a response, for the C4 witness. -/
def c4done : NetworkRequest :=
  { request := some sampleReq, response := some sampleResp, response_body := some "{}" }

/-- C4 witness: attaching to the one pending record, dropping a response
whose record is already matched, and stability of a completed record
under a further response event. -/
theorem c4_witness :
    handle_response sampleResp [c2entry] = [attachResp sampleResp c2entry]
    ∧ handle_response sampleResp [c4done] = [c4done]
    ∧ ([NetEvent.response sampleResp].foldl stepEvent [c4done])[0]? = some c4done := by
  have h1 := (c4_response_attachment sampleResp [c2entry]).1 0 c2entry (by decide)
    (by decide) (fun j hj e hg => absurd hj (Nat.not_lt_zero j))
  have h2 := (c4_response_attachment sampleResp [c4done]).2.1 (by decide)
  have h3 := (c4_response_attachment sampleResp [c4done]).2.2
    [NetEvent.response sampleResp] 0 c4done (by decide) (by decide)
  exact ⟨h1.trans (by decide), h2, h3⟩

/-- C8: annotation is a per-line frame operation: the annotated text has
exactly as many lines as the input, and the line at every index is the
input line at the same index — unchanged when the interactivity heuristic
does not match, and with only the reference tag appended when it does. -/
theorem c8_annotation_frame (s : List Char) :
    (splitLines (add_element_refs s)).length = (splitLines s).length
    ∧ ∀ i : Nat, (splitLines (add_element_refs s))[i]?
        = ((splitLines s)[i]?).map (fun l =>
            if isInteractive l then
              l ++ refTag (1 + ((splitLines s).take i).countP isInteractive)
            else l) := by
  constructor
  · rw [splitLines_add_element_refs, annotate_length]
  · intro i
    rw [splitLines_add_element_refs, annotate_getElem?]

/-- C3 counterexample: the snapshot text "zzz [ref=7]" matches no
interactivity keyword (so N = 0), is left unchanged by annotation, and yet
`parse_refs` recovers one entry from it, so the round-trip claim fails on
inputs already containing the "[ref=" marker. -/
theorem c3_counterexample :
    isInteractive "zzz [ref=7]".data = false
    ∧ ((splitLines "zzz [ref=7]".data).filter isInteractive).length = 0
    ∧ add_element_refs "zzz [ref=7]".data = "zzz [ref=7]".data
    ∧ parse_refs (add_element_refs "zzz [ref=7]".data)
        = [⟨"7".data, "zzz".data⟩] := by
  refine ⟨by decide, by decide, by decide, by decide⟩

/-- C3 (amended): on snapshot text none of whose lines already contains
the substring "[ref=", annotation tags exactly the interactive lines with
counters 1..N in line order, and parsing the annotated text recovers
exactly N entries in the same order, the i-th pairing the decimal digits
of i+1 with the trimmed text of the i-th interactive line. -/
theorem c3_annotate_parse_roundtrip (s : List Char)
    (h : ∀ l ∈ splitLines s, containsSub l refMark = false) :
    (∀ i : Nat, (splitLines (add_element_refs s))[i]?
        = ((splitLines s)[i]?).map (fun l =>
            if isInteractive l then
              l ++ refTag (1 + ((splitLines s).take i).countP isInteractive)
            else l))
    ∧ (parse_refs (add_element_refs s)).length
        = ((splitLines s).filter isInteractive).length
    ∧ ∀ i : Nat, (parse_refs (add_element_refs s))[i]?
        = (((splitLines s).filter isInteractive)[i]?).map
            (fun l => (⟨natDigits (i + 1), trim l⟩ : RefEntry)) := by
  refine ⟨?_, ?_, ?_⟩
  · intro i
    rw [splitLines_add_element_refs, annotate_getElem?]
  · rw [parse_refs_add_element_refs s h, refSpec_length]
  · intro i
    rw [parse_refs_add_element_refs s h, refSpec_getElem?]
    have harith : 1 + i = i + 1 := by omega
    rw [harith]

/-- C3 witness: the round trip evaluated on a three-line snapshot with two
interactive lines. -/
theorem c3_witness :
    (parse_refs (add_element_refs "- button Submit\nplain\n- link Home".data)).length
      = ((splitLines "- button Submit\nplain\n- link Home".data).filter isInteractive).length
    ∧ (parse_refs (add_element_refs "- button Submit\nplain\n- link Home".data))[0]?
      = some ⟨"1".data, "- button Submit".data⟩
    ∧ (parse_refs (add_element_refs "- button Submit\nplain\n- link Home".data))[1]?
      = some ⟨"2".data, "- link Home".data⟩ := by
  have h := c3_annotate_parse_roundtrip "- button Submit\nplain\n- link Home".data (by decide)
  exact ⟨h.2.1, (h.2.2 0).trans (by decide), (h.2.2 1).trans (by decide)⟩

/-- Environment in which the browser launch itself fails, for the C1
counterexample. -/
def launchFailEnv : Env := { sampleEnv with launch := .error "Browser launch failed" }

/-- C1 counterexample: when the launch raises, the exception escapes
`website_snapshot` uncaught — no "Failed:" text unit is returned — and
the browser close operation runs zero times, not once: the launch happens
before the `try`, so neither the `except` nor the `finally` applies. -/
theorem c1_counterexample :
    (website_snapshot launchFailEnv "https://example.com").result
        = Except.error "Browser launch failed"
    ∧ (website_snapshot launchFailEnv "https://example.com").browserCloses = 0 := by
  exact ⟨by decide, by decide⟩

/-- C1 (amended): for every exception raised during the capture after a
successful browser launch (context creation, page creation, navigation,
load wait, snapshot capture, title retrieval, or context close),
`website_snapshot` catches it at the orchestrator boundary and returns
exactly one text unit embedding "Failed:" and the error's description,
and the browser close operation still runs exactly once. -/
theorem c1_failure_after_launch (env : Env) (url : String) (e : String)
    (hvalid : is_valid_url url = true) (hlaunch : env.launch = .ok ())
    (herr : captureSteps env = .error e) :
    (website_snapshot env url).result = .ok [⟨"❌ Failed: " ++ e⟩]
    ∧ (website_snapshot env url).browserCloses = 1 := by
  constructor <;> simp [website_snapshot, hvalid, hlaunch, herr]

/-- Environment in which context creation fails after a successful
launch, for the C1 witness. -/
def ctxFailEnv : Env := { sampleEnv with new_context := .error "Context creation failed" }

/-- C1 witness: the fatal-failure scenario of the spec, with a context
creation error after a successful launch: one "Failed:" text unit and one
browser close. -/
theorem c1_witness :
    (website_snapshot ctxFailEnv "https://example.com").result
      = .ok [⟨"❌ Failed: Context creation failed"⟩]
    ∧ (website_snapshot ctxFailEnv "https://example.com").browserCloses = 1 :=
  c1_failure_after_launch ctxFailEnv "https://example.com" "Context creation failed"
    (by decide) rfl (by decide)
